import Mathlib

/-!
Verification of the `ratelim` cooldown gate (`src/lib.rs`).

Time is modelled discretely: Rust's `std::time::Instant` and
`std::time::Duration` both become `Nat` (nanosecond counts). Rust's
saturating `Instant` subtraction matches truncated subtraction on `Nat`.
A panic is modelled as `Option.none`.

Each operation of `RateLimiter` observes the clock at specific points of its
body. To keep that observable, the run variants take explicit event instants:
`t1` is the instant of the first clock-ordered event inside the call and `t2`
the instant of the second.

For `try_run` the two events are, on a cold gate (no `start`): the action is
invoked (at `t1`), then `start_now` samples `Instant::now()` (at `t2`);
on a warm gate: `Instant::now()` is sampled (at `t1`), then the action is
possibly invoked (at `t2`). The list `calls` records the instants at which
the caller-supplied action was invoked, so "exactly once" is `length = 1`.
-/

/-- The `RateLimiter` struct: a fixed cooldown period and an optional
instant at which the current cooldown window began. -/
structure RateLimiter where
  cooldown : Nat
  start : Option Nat
deriving DecidableEq, Repr

/-- `RateLimiter::new`: `assert!(!cooldown.is_zero())` then initializes with
`start: None`. The panic of a zero cooldown is modelled as `none`. -/
def RateLimiter.new (cooldown : Nat) : Option RateLimiter :=
  if cooldown = 0 then none
  else some { cooldown := cooldown, start := none }

/-- `RateLimiter::cooldown_period`: returns the cooldown period. -/
def RateLimiter.cooldown_period (self : RateLimiter) : Nat :=
  self.cooldown

/-- `RateLimiter::start_now`, sampling `Instant::now() = now`:
`self.start.replace(Instant::now())` — returns the previous start time
if any, and (re)starts the cooldown period. -/
def RateLimiter.start_now (self : RateLimiter) (now : Nat) :
    Option Nat × RateLimiter :=
  (self.start, { self with start := some now })

/-- Result of one `try_run` call: the updated limiter, the returned
`Result<(), Duration>`, and the instants at which the supplied closure `f`
was invoked during the call. -/
structure TryRunOut where
  rl : RateLimiter
  res : Except Nat Unit
  calls : List Nat
deriving Repr

/-- `RateLimiter::try_run`. Cold gate: `f()` runs (at `t1`), then
`self.start_now()` samples the clock (at `t2`), returns `Ok`. Warm gate:
`let t_cold = start + cooldown; let now = Instant::now()` (at `t1`);
if `now < t_cold` it errs with `t_cold - now` leaving the state unchanged,
else `f()` runs (at `t2`) and `start` is replaced with `now`. -/
def RateLimiter.try_run (self : RateLimiter) (t1 t2 : Nat) : TryRunOut :=
  match self.start with
  | none =>
      { rl := { self with start := some t2 }, res := .ok (), calls := [t1] }
  | some start =>
      let t_cold := start + self.cooldown
      let now := t1
      if now < t_cold then
        { rl := self, res := .error (t_cold - now), calls := [] }
      else
        { rl := { self with start := some now }, res := .ok (), calls := [t2] }

/-- `RateLimiter::run`: `self.try_run(f).ok();` — the result is discarded.
Observable outcome: the updated limiter and the action-invocation instants. -/
def RateLimiter.run (self : RateLimiter) (t1 t2 : Nat) :
    RateLimiter × List Nat :=
  let o := self.try_run t1 t2
  (o.rl, o.calls)

/-- Result of one `run_dt` call: the updated limiter and, for each invocation
of the supplied closure, the instant of the invocation together with the
`elapsed` duration passed as its argument. -/
structure RunDtOut where
  rl : RateLimiter
  calls : List (Nat × Nat)
deriving DecidableEq, Repr

/-- `RateLimiter::run_dt`. Cold gate: `self.start_now()` (clock sampled at
`t1`) and return, without running `f`. Warm gate:
`let now = Instant::now()` (at `t1`); `let elapsed = now - start;`
if `elapsed >= cooldown` then `f(elapsed)` runs (at `t2`) and `start` is
replaced with `now`, else nothing happens. -/
def RateLimiter.run_dt (self : RateLimiter) (t1 t2 : Nat) : RunDtOut :=
  match self.start with
  | none =>
      { rl := (self.start_now t1).2, calls := [] }
  | some start =>
      let now := t1
      let elapsed := now - start
      if self.cooldown ≤ elapsed then
        { rl := { self with start := some now }, calls := [(t2, elapsed)] }
      else
        { rl := self, calls := [] }

/-- Spec-side description of `run`, written from the spec's words for the
refinement claim: "calls `try_run`; discards the error/result. Side effect
identical to `try_run` on success; no-op on failure." -/
def RateLimiter.run_spec (self : RateLimiter) (t1 t2 : Nat) :
    RateLimiter × List Nat :=
  match (self.try_run t1 t2).res with
  | .ok _ => ((self.try_run t1 t2).rl, (self.try_run t1 t2).calls)
  | .error _ => (self, [])

/-- One call in a client's interaction history with a `RateLimiter`,
carrying the event instants the call observes. -/
inductive Op where
  | startNow (t : Nat)
  | runOp (t1 t2 : Nat)
  | runDtOp (t1 t2 : Nat)
  | tryRunOp (t1 t2 : Nat)
deriving DecidableEq, Repr

/-- Whether the call is one of the run variants (`run`, `run_dt`, `try_run`),
as opposed to `start_now`. -/
def Op.isRunVariant : Op → Bool
  | .startNow _ => false
  | .runOp _ _ => true
  | .runDtOp _ _ => true
  | .tryRunOp _ _ => true

/-- Executes one call. The second component is the execution trace of the
call: for each call that actually invoked the supplied action, the instant
the call stored as the new window start (its `Instant::now()` sample). -/
def step (rl : RateLimiter) : Op → RateLimiter × List Nat
  | .startNow t => ((rl.start_now t).2, [])
  | .runOp t1 t2 =>
      let o := rl.run t1 t2
      (o.1, if o.2.isEmpty then [] else o.1.start.toList)
  | .runDtOp t1 t2 =>
      let o := rl.run_dt t1 t2
      (o.rl, if o.calls.isEmpty then [] else o.rl.start.toList)
  | .tryRunOp t1 t2 =>
      let o := rl.try_run t1 t2
      (o.rl, if o.calls.isEmpty then [] else o.rl.start.toList)

/-- Executes a sequence of calls, concatenating the execution traces. -/
def steps (rl : RateLimiter) : List Op → RateLimiter × List Nat
  | [] => (rl, [])
  | op :: ops =>
      let s1 := step rl op
      let s2 := steps s1.1 ops
      (s2.1, s1.2 ++ s2.2)

/-- Invariant tying a limiter to the execution trace so far: a cold gate has
an empty trace, and on a warm gate every traced instant is bounded by the
recorded window start. -/
def TraceInv (rl : RateLimiter) (tr : List Nat) : Prop :=
  (rl.start = none → tr = []) ∧ ∀ v, rl.start = some v → ∀ x ∈ tr, x ≤ v

/-- The `Timer` struct: the instant it was started at. The caller-supplied
`on_drop` closure is modelled by the invocation lists below. -/
structure Timer where
  started : Nat
deriving DecidableEq, Repr

/-- `Timer::start`, sampling `Instant::now() = now`: captures the current
instant. The second component lists the invocations of `on_drop` performed
by `start` itself: none. -/
def Timer.start (now : Nat) : Timer × List Nat :=
  ({ started := now }, [])

/-- `<Timer as Drop>::drop`, at instant `now`: invokes
`(self.on_drop)(self.started.elapsed())`. The result lists the arguments of
the invocations of `on_drop` performed by `drop`: exactly one, with
`elapsed = now - started` (`Instant::elapsed` saturates at zero). -/
def Timer.drop (self : Timer) (now : Nat) : List Nat :=
  [now - self.started]

/-- A whole timer scope: the timer is created at `t0`; when the owning scope
is exited at `t1` — by any path, Rust's `Drop` guarantee being modelled as
`drop` running exactly at scope exit — the callback invocations over the
scope's lifetime are those of `start` followed by those of `drop`. -/
def Timer.scopeInvocations (t0 t1 : Nat) : List Nat :=
  (Timer.start t0).2 ++ (Timer.start t0).1.drop t1

/-! ## Theorems about single calls -/

/-- C2: on a freshly constructed gate (`start` absent) the first `try_run`
invokes the action exactly once, returns success, and records the sampled
instant as the new window start. -/
theorem C2_first_try_run_fires (c : Nat) (rl : RateLimiter)
    (t1 t2 : Nat) (hnew : RateLimiter.new c = some rl) :
    (rl.try_run t1 t2).res = .ok () ∧
    (rl.try_run t1 t2).calls = [t1] ∧
    (rl.try_run t1 t2).calls.length = 1 ∧
    (rl.try_run t1 t2).rl.start = some t2 ∧
    (rl.try_run t1 t2).rl.cooldown = c := by
  unfold RateLimiter.new at hnew
  split at hnew
  · exact absurd hnew (by simp)
  · injection hnew with h
    subst h
    simp [RateLimiter.try_run]

/-- Witness for C2 at `c = 5`, `t1 = 10`, `t2 = 11`. -/
theorem C2_first_try_run_fires_witness :
    RateLimiter.new 5 = some { cooldown := 5, start := none } ∧
    ((({ cooldown := 5, start := none } : RateLimiter).try_run 10 11).res
        = .ok () ∧
      (({ cooldown := 5, start := none } : RateLimiter).try_run 10 11).calls
        = [10] ∧
      ((({ cooldown := 5, start := none } : RateLimiter).try_run 10
          11).calls).length = 1 ∧
      ((({ cooldown := 5, start := none } : RateLimiter).try_run 10
          11).rl).start = some 11 ∧
      ((({ cooldown := 5, start := none } : RateLimiter).try_run 10
          11).rl).cooldown = 5) :=
  ⟨by decide, C2_first_try_run_fires 5 { cooldown := 5, start := none } 10 11
    (by decide)⟩

/-- C3: on a started gate, a `try_run` strictly before the deadline
`start + cooldown` does not invoke the action, errs with exactly
`deadline - now`, and leaves the state unchanged. -/
theorem C3_try_run_cooling (c s t1 t2 : Nat) (h : t1 < s + c) :
    ({ cooldown := c, start := some s } : RateLimiter).try_run t1 t2 =
      { rl := { cooldown := c, start := some s },
        res := .error (s + c - t1), calls := [] } := by
  simp [RateLimiter.try_run, h]

/-- Witness for C3 at `c = 5`, `s = 0`, `now = 3`: errs with `2`. -/
theorem C3_try_run_cooling_witness :
    3 < 0 + 5 ∧
    ({ cooldown := 5, start := some 0 } : RateLimiter).try_run 3 3 =
      { rl := { cooldown := 5, start := some 0 },
        res := .error (0 + 5 - 3), calls := [] } :=
  ⟨by decide, C3_try_run_cooling 5 0 3 3 (by decide)⟩

/-- C4: on a started gate, a `try_run` at or after the deadline (with any
overshoot) invokes the action exactly once, resets `start` to the sampled
`now` (not to the deadline), and returns success. -/
theorem C4_try_run_fires_after_deadline (c s t1 t2 : Nat) (h : s + c ≤ t1) :
    ({ cooldown := c, start := some s } : RateLimiter).try_run t1 t2 =
      { rl := { cooldown := c, start := some t1 },
        res := .ok (), calls := [t2] } := by
  simp [RateLimiter.try_run, Nat.not_lt.mpr h]

/-- Witness for C4 at `c = 5`, `s = 0`, `now = 100` (overshoot `95`):
fires and resets `start` to `100`, not to the deadline `5`. -/
theorem C4_try_run_fires_after_deadline_witness :
    0 + 5 ≤ 100 ∧
    ({ cooldown := 5, start := some 0 } : RateLimiter).try_run 100 103 =
      { rl := { cooldown := 5, start := some 100 },
        res := .ok (), calls := [103] } :=
  ⟨by decide, C4_try_run_fires_after_deadline 5 0 100 103 (by decide)⟩

/-- C5: `run_dt` on a cold gate only arms the gate (no invocation); on a
started gate it invokes the action with the actual, uncapped elapsed time
and resets `start` to `now` when `elapsed ≥ cooldown`, and otherwise does
nothing. -/
theorem C5_run_dt_cases (c s t1 t2 : Nat) :
    (({ cooldown := c, start := none } : RateLimiter).run_dt t1 t2 =
      { rl := { cooldown := c, start := some t1 }, calls := [] }) ∧
    (c ≤ t1 - s →
      ({ cooldown := c, start := some s } : RateLimiter).run_dt t1 t2 =
        { rl := { cooldown := c, start := some t1 },
          calls := [(t2, t1 - s)] }) ∧
    (t1 - s < c →
      ({ cooldown := c, start := some s } : RateLimiter).run_dt t1 t2 =
        { rl := { cooldown := c, start := some s }, calls := [] }) := by
  refine ⟨by simp [RateLimiter.run_dt, RateLimiter.start_now], ?_, ?_⟩
  · intro h
    simp [RateLimiter.run_dt, h]
  · intro h
    simp [RateLimiter.run_dt, Nat.not_le.mpr h]

/-- Witness for C5 at `c = 5`, `s = 0`: cold call at `7` only arms; warm
call at `7` fires with uncapped elapsed `7`; warm call at `3` is a no-op. -/
theorem C5_run_dt_cases_witness :
    (({ cooldown := 5, start := none } : RateLimiter).run_dt 7 9 =
      { rl := { cooldown := 5, start := some 7 }, calls := [] }) ∧
    (({ cooldown := 5, start := some 0 } : RateLimiter).run_dt 7 9 =
      { rl := { cooldown := 5, start := some 7 }, calls := [(9, 7)] }) ∧
    (({ cooldown := 5, start := some 0 } : RateLimiter).run_dt 3 9 =
      { rl := { cooldown := 5, start := some 0 }, calls := [] }) :=
  ⟨(C5_run_dt_cases 5 0 7 9).1,
   (C5_run_dt_cases 5 0 7 9).2.1 (by decide),
   (C5_run_dt_cases 5 0 3 9).2.2 (by decide)⟩

/-- C6: `run` (from the source: `try_run` with the result discarded) has
exactly the behaviour the spec describes: identical state change and action
invocations as `try_run` on success, and a pure no-op on failure. -/
theorem C6_run_refines_try_run (rl : RateLimiter) (t1 t2 : Nat) :
    rl.run t1 t2 = rl.run_spec t1 t2 := by
  cases hs : rl.start with
  | none =>
      simp [RateLimiter.run, RateLimiter.run_spec, RateLimiter.try_run, hs]
  | some s =>
      by_cases h : t1 < s + rl.cooldown
      · simp [RateLimiter.run, RateLimiter.run_spec, RateLimiter.try_run,
          hs, h]
      · simp [RateLimiter.run, RateLimiter.run_spec, RateLimiter.try_run,
          hs, h]

/-- C7: construction fails exactly on a zero cooldown; a successfully
constructed gate has no start instant and a strictly positive cooldown. -/
theorem C7_new_fails_iff_zero (c : Nat) :
    (RateLimiter.new c = none ↔ c = 0) ∧
    (c ≠ 0 →
      RateLimiter.new c = some { cooldown := c, start := none } ∧
      0 < ({ cooldown := c, start := none } : RateLimiter).cooldown ∧
      ({ cooldown := c, start := none } : RateLimiter).start = none) := by
  constructor
  · unfold RateLimiter.new
    split <;> simp_all
  · intro h
    exact ⟨by simp [RateLimiter.new, h], Nat.pos_of_ne_zero h, rfl⟩

/-- Witness for C7 at `c = 0` (fails) and `c = 5` (succeeds). -/
theorem C7_new_fails_iff_zero_witness :
    (RateLimiter.new 0 = none ↔ (0 : Nat) = 0) ∧
    (RateLimiter.new 5 = some { cooldown := 5, start := none } ∧
      0 < ({ cooldown := 5, start := none } : RateLimiter).cooldown ∧
      ({ cooldown := 5, start := none } : RateLimiter).start = none) :=
  ⟨(C7_new_fails_iff_zero 0).1, (C7_new_fails_iff_zero 5).2 (by decide)⟩

/-- C9: a timer started at `t0` performs no callback invocation at start;
when the owning scope exits at `t1` (modelling Rust's `Drop` guarantee,
on whichever exit path, as `drop` running exactly at scope exit), the
callback is invoked exactly once, with `elapsed = t1 - t0`. -/
theorem C9_timer_scope (t0 t1 : Nat) :
    (Timer.start t0).2 = [] ∧
    (Timer.start t0).1.started = t0 ∧
    Timer.scopeInvocations t0 t1 = [t1 - t0] ∧
    (Timer.scopeInvocations t0 t1).length = 1 := by
  simp [Timer.start, Timer.drop, Timer.scopeInvocations]

/-- C10: the two success paths of `try_run` sample the stored instant on
opposite sides of the action: cold path — the action (invoked at `t1`)
precedes the stored sample `t2`, so the action's running time is not part
of the next window's elapsed time; warm path — the stored sample `t1`
precedes the action (invoked at `t2`), so the action's running time does
count toward the next window's elapsed time. -/
theorem C10_sampling_asymmetry (c s t1 t2 : Nat) (hord : t1 ≤ t2) :
    ((({ cooldown := c, start := none } : RateLimiter).try_run t1 t2).calls
        = [t1] ∧
      ((({ cooldown := c, start := none } : RateLimiter).try_run t1
          t2).rl).start = some t2 ∧
      ∀ a ∈ (({ cooldown := c, start := none } :
          RateLimiter).try_run t1 t2).calls, a ≤ t2) ∧
    (s + c ≤ t1 →
      (({ cooldown := c, start := some s } : RateLimiter).try_run t1
          t2).calls = [t2] ∧
      ((({ cooldown := c, start := some s } : RateLimiter).try_run t1
          t2).rl).start = some t1 ∧
      ∀ a ∈ (({ cooldown := c, start := some s } :
          RateLimiter).try_run t1 t2).calls, t1 ≤ a) := by
  constructor
  · simp [RateLimiter.try_run, hord]
  · intro h
    simp [RateLimiter.try_run, Nat.not_lt.mpr h, hord]

/-- Witness for C10 at `c = 3`, `s = 0`, `t1 = 3`, `t2 = 4`. -/
theorem C10_sampling_asymmetry_witness :
    (3 : Nat) ≤ 4 ∧ (0 : Nat) + 3 ≤ 3 ∧
    ((({ cooldown := 3, start := none } : RateLimiter).try_run 3 4).calls
        = [3] ∧
      ((({ cooldown := 3, start := none } : RateLimiter).try_run 3
          4).rl).start = some 4 ∧
      ∀ a ∈ (({ cooldown := 3, start := none } :
          RateLimiter).try_run 3 4).calls, a ≤ 4) ∧
    ((({ cooldown := 3, start := some 0 } : RateLimiter).try_run 3 4).calls
        = [4] ∧
      ((({ cooldown := 3, start := some 0 } : RateLimiter).try_run 3
          4).rl).start = some 3 ∧
      ∀ a ∈ (({ cooldown := 3, start := some 0 } :
          RateLimiter).try_run 3 4).calls, 3 ≤ a) :=
  ⟨by decide, by decide, (C10_sampling_asymmetry 3 0 3 4 (by decide)).1,
    (C10_sampling_asymmetry 3 0 3 4 (by decide)).2 (by decide)⟩

/-! ## Theorems about call sequences -/

/-- Unfolding lemma for `steps` on a cons. -/
lemma steps_cons (rl : RateLimiter) (op : Op) (ops : List Op) :
    steps rl (op :: ops) =
      ((steps (step rl op).1 ops).1,
        (step rl op).2 ++ (steps (step rl op).1 ops).2) := rfl

/-- No call ever changes the `cooldown` field. -/
lemma step_cooldown (rl : RateLimiter) (op : Op) :
    (step rl op).1.cooldown = rl.cooldown := by
  cases op with
  | startNow t => rfl
  | runOp t1 t2 =>
      cases hs : rl.start with
      | none => simp [step, RateLimiter.run, RateLimiter.try_run, hs]
      | some s =>
          by_cases h : t1 < s + rl.cooldown <;>
            simp [step, RateLimiter.run, RateLimiter.try_run, hs, h]
  | runDtOp t1 t2 =>
      cases hs : rl.start with
      | none => simp [step, RateLimiter.run_dt, RateLimiter.start_now, hs]
      | some s =>
          by_cases h : rl.cooldown ≤ t1 - s <;>
            simp [step, RateLimiter.run_dt, hs, h]
  | tryRunOp t1 t2 =>
      cases hs : rl.start with
      | none => simp [step, RateLimiter.try_run, hs]
      | some s =>
          by_cases h : t1 < s + rl.cooldown <;>
            simp [step, RateLimiter.try_run, hs, h]

/-- No sequence of calls ever changes the `cooldown` field. -/
lemma steps_cooldown (ops : List Op) : ∀ rl : RateLimiter,
    (steps rl ops).1.cooldown = rl.cooldown := by
  induction ops with
  | nil => intro rl; rfl
  | cons op ops ih =>
      intro rl
      rw [steps_cons]
      exact (ih (step rl op).1).trans (step_cooldown rl op)

/-- One run-variant call preserves the separation property and the trace
invariant. -/
lemma step_sep (c : Nat) (rl : RateLimiter) (op : Op) (tr : List Nat)
    (hc : 0 < c) (hcool : rl.cooldown = c) (hop : op.isRunVariant = true)
    (hsep : List.Pairwise (fun a b => a + c ≤ b) tr)
    (hinv : TraceInv rl tr) :
    List.Pairwise (fun a b => a + c ≤ b) (tr ++ (step rl op).2) ∧
    TraceInv (step rl op).1 (tr ++ (step rl op).2) := by
  have key : ∀ t1 t2 : Nat,
      List.Pairwise (fun a b => a + c ≤ b)
        (tr ++ (step rl (.tryRunOp t1 t2)).2) ∧
      TraceInv (step rl (.tryRunOp t1 t2)).1
        (tr ++ (step rl (.tryRunOp t1 t2)).2) := by
    intro t1 t2
    cases hs : rl.start with
    | none =>
        have htr : tr = [] := hinv.1 hs
        subst htr
        refine ⟨by simp [step, RateLimiter.try_run, hs], ?_, ?_⟩
        · intro hnone
          simp [step, RateLimiter.try_run, hs] at hnone
        · intro v hv x hx
          simp [step, RateLimiter.try_run, hs] at hv hx
          omega
    | some s =>
        by_cases h : t1 < s + rl.cooldown
        · refine ⟨by simpa [step, RateLimiter.try_run, hs, h] using hsep,
            ?_, ?_⟩
          · intro hnone
            simp [step, RateLimiter.try_run, hs, h] at hnone
          · intro v hv x hx
            simp [step, RateLimiter.try_run, hs, h] at hv hx
            exact hinv.2 v (hv ▸ hs) x hx
        · have hbound := hinv.2 s hs
          have hle : s + c ≤ t1 := by
            rw [hcool] at h; omega
          constructor
          · rw [List.pairwise_append]
            refine ⟨hsep, ?_, ?_⟩
            · simp [step, RateLimiter.try_run, hs, h]
            · intro a ha b hb
              simp [step, RateLimiter.try_run, hs, h] at hb
              have := hbound a ha
              omega
          · refine ⟨?_, ?_⟩
            · intro hnone
              simp [step, RateLimiter.try_run, hs, h] at hnone
            · intro v hv x hx
              simp [step, RateLimiter.try_run, hs, h] at hv
              rcases List.mem_append.mp hx with hx | hx
              · have := hbound x hx
                omega
              · simp [step, RateLimiter.try_run, hs, h] at hx
                omega
  cases op with
  | startNow t => simp [Op.isRunVariant] at hop
  | runOp t1 t2 => exact key t1 t2
  | tryRunOp t1 t2 => exact key t1 t2
  | runDtOp t1 t2 =>
      cases hs : rl.start with
      | none =>
          have htr : tr = [] := hinv.1 hs
          subst htr
          refine ⟨by simp [step, RateLimiter.run_dt,
              RateLimiter.start_now, hs], ?_, ?_⟩
          · intro hnone
            simp [step, RateLimiter.run_dt, RateLimiter.start_now, hs]
              at hnone
          · intro v hv x hx
            simp [step, RateLimiter.run_dt, RateLimiter.start_now, hs] at hx
      | some s =>
          by_cases h : rl.cooldown ≤ t1 - s
          · have hbound := hinv.2 s hs
            have hle : s + c ≤ t1 := by
              rw [hcool] at h; omega
            constructor
            · rw [List.pairwise_append]
              refine ⟨hsep, ?_, ?_⟩
              · simp [step, RateLimiter.run_dt, hs, h]
              · intro a ha b hb
                simp [step, RateLimiter.run_dt, hs, h] at hb
                have := hbound a ha
                omega
            · refine ⟨?_, ?_⟩
              · intro hnone
                simp [step, RateLimiter.run_dt, hs, h] at hnone
              · intro v hv x hx
                simp [step, RateLimiter.run_dt, hs, h] at hv
                rcases List.mem_append.mp hx with hx | hx
                · have := hbound x hx
                  omega
                · simp [step, RateLimiter.run_dt, hs, h] at hx
                  omega
          · refine ⟨by simpa [step, RateLimiter.run_dt, hs, h] using hsep,
              ?_, ?_⟩
            · intro hnone
              simp [step, RateLimiter.run_dt, hs, h] at hnone
            · intro v hv x hx
              simp [step, RateLimiter.run_dt, hs, h] at hv hx
              exact hinv.2 v (hv ▸ hs) x hx

/-- A sequence of run-variant calls preserves the separation property. -/
lemma steps_sep (c : Nat) (hc : 0 < c) :
    ∀ (ops : List Op) (rl : RateLimiter) (tr : List Nat),
      rl.cooldown = c → (∀ op ∈ ops, op.isRunVariant = true) →
      List.Pairwise (fun a b => a + c ≤ b) tr → TraceInv rl tr →
      List.Pairwise (fun a b => a + c ≤ b) (tr ++ (steps rl ops).2) := by
  intro ops
  induction ops with
  | nil =>
      intro rl tr hcool hops hsep hinv
      simpa [steps] using hsep
  | cons op ops ih =>
      intro rl tr hcool hops hsep hinv
      have h1 := step_sep c rl op tr hc hcool (hops op (by simp)) hsep hinv
      have hcool1 : (step rl op).1.cooldown = c :=
        (step_cooldown rl op).trans hcool
      have h2 := ih (step rl op).1 (tr ++ (step rl op).2) hcool1
        (fun o ho => hops o (by simp [ho])) h1.1 h1.2
      rw [steps_cons]
      simpa [List.append_assoc] using h2

/-- C1: for a positive cooldown, over any sequence of calls to the run
variants (`run`, `run_dt`, `try_run`) starting from a freshly constructed
gate, any two calls that actually executed the action are separated by at
least `cooldown`, however late each call arrives (overshoot past a deadline
is never credited toward the next window). -/
theorem C1_executions_separated (c : Nat) (rl : RateLimiter) (ops : List Op)
    (hc : 0 < c) (hnew : RateLimiter.new c = some rl)
    (hops : ∀ op ∈ ops, op.isRunVariant = true) :
    List.Pairwise (fun a b => a + c ≤ b) (steps rl ops).2 := by
  have hrl : rl = { cooldown := c, start := none } := by
    unfold RateLimiter.new at hnew
    split at hnew
    · exact absurd hnew (by simp)
    · exact (Option.some.inj hnew).symm
  subst hrl
  have h := steps_sep c hc ops { cooldown := c, start := none } [] rfl hops
    (by simp) ⟨fun _ => rfl, fun v hv => by simp at hv⟩
  simpa using h

/-- Witness for C1: `c = 5` and five calls; the action fires on the first,
third and fifth, at sampled instants `0`, `6` and `20`. -/
theorem C1_executions_separated_witness :
    0 < 5 ∧
    RateLimiter.new 5 = some { cooldown := 5, start := none } ∧
    (∀ op ∈ [Op.tryRunOp 0 0, Op.tryRunOp 3 3, Op.runOp 6 6, Op.runDtOp 8 8,
        Op.tryRunOp 20 21], op.isRunVariant = true) ∧
    List.Pairwise (fun a b => a + 5 ≤ b)
      (steps { cooldown := 5, start := none }
        [Op.tryRunOp 0 0, Op.tryRunOp 3 3, Op.runOp 6 6, Op.runDtOp 8 8,
          Op.tryRunOp 20 21]).2 :=
  ⟨by decide, by decide, by decide,
    C1_executions_separated 5 { cooldown := 5, start := none }
      [Op.tryRunOp 0 0, Op.tryRunOp 3 3, Op.runOp 6 6, Op.runDtOp 8 8,
        Op.tryRunOp 20 21] (by decide) (by decide) (by decide)⟩

/-- C8: after any sequence of calls (`start_now` included),
`cooldown_period` still returns exactly the duration passed at
construction. -/
theorem C8_cooldown_immutable (c : Nat) (rl : RateLimiter) (ops : List Op)
    (hnew : RateLimiter.new c = some rl) :
    ((steps rl ops).1).cooldown_period = c := by
  have hrl : rl = { cooldown := c, start := none } := by
    unfold RateLimiter.new at hnew
    split at hnew
    · exact absurd hnew (by simp)
    · exact (Option.some.inj hnew).symm
  subst hrl
  unfold RateLimiter.cooldown_period
  rw [steps_cooldown]

/-- Witness for C8 at `c = 7` over a four-call sequence. -/
theorem C8_cooldown_immutable_witness :
    RateLimiter.new 7 = some { cooldown := 7, start := none } ∧
    ((steps { cooldown := 7, start := none }
      [Op.startNow 2, Op.tryRunOp 3 3, Op.runDtOp 12 12,
        Op.runOp 30 30]).1).cooldown_period = 7 :=
  ⟨by decide,
    C8_cooldown_immutable 7 { cooldown := 7, start := none }
      [Op.startNow 2, Op.tryRunOp 3 3, Op.runDtOp 12 12, Op.runOp 30 30]
      (by decide)⟩
